import Mathlib

/-!
Verification of the typed multi-dimensional array persistence subsystem
(`bob::io::Array` + tensor codec + codec registry) and of the Python
dict-to-map converter (`Torch::python::from_python_dict`).

The Array/codec core is not shipped in this snapshot (only its test,
`cxx/io/test/tensor_codec.cc`, is), so those components are modelled from
the specification; `map_container.h` is embedded directly from source.
-/

deriving instance DecidableEq for Except

namespace Bob

/-- Modelled from the spec: the closed `ElementType` enumeration of
`bob::core::array` (the enum header is absent from the snapshot); the test
refers to `bob::core::array::t_int8`. -/
inductive ElementType where
  | t_bool
  | t_int8
  | t_uint8
  | t_int16
  | t_uint16
  | t_int32
  | t_uint32
  | t_int64
  | t_uint64
  | t_float32
  | t_float64
  | t_complex64
  | t_complex128
deriving DecidableEq

/-- Modelled from the spec: "for lossless types" — integer and bool element
types round-trip exactly; floating/complex kinds are excluded by that wording. -/
def losslessET : ElementType → Bool
  | .t_float32 => false
  | .t_float64 => false
  | .t_complex64 => false
  | .t_complex128 => false
  | _ => true

/-- Truncation of a rational toward zero, as the C `(int)` conversion does. -/
def ratTrunc (q : ℚ) : Int :=
  q.num.tdiv (q.den : Int)

/-- Reduce an integer into the value range of a `w`-bit unsigned type
(the C modular conversion rule). -/
def wrapU (w : Nat) (x : Int) : Int :=
  x.emod ((2 : Int) ^ w)

/-- Reduce an integer into the value range of a `w`-bit signed two's-complement
type (the native wrap-around conversion rule). -/
def wrapS (w : Nat) (x : Int) : Int :=
  let r := x.emod ((2 : Int) ^ w)
  if (2 : Int) ^ (w - 1) ≤ r then r - (2 : Int) ^ w else r

/-- Modelled from the spec: the element-wise numeric cast of
`bob::core::cast` (header absent from the snapshot): standard conversion
semantics — float to int truncates toward zero, integer overflow wraps per
the target type's native conversion rule; scalar payloads are modelled as
rationals. -/
def castTo (et : ElementType) (q : ℚ) : ℚ :=
  match et with
  | .t_bool => if q = 0 then 0 else 1
  | .t_int8 => (wrapS 8 (ratTrunc q) : ℚ)
  | .t_uint8 => (wrapU 8 (ratTrunc q) : ℚ)
  | .t_int16 => (wrapS 16 (ratTrunc q) : ℚ)
  | .t_uint16 => (wrapU 16 (ratTrunc q) : ℚ)
  | .t_int32 => (wrapS 32 (ratTrunc q) : ℚ)
  | .t_uint32 => (wrapU 32 (ratTrunc q) : ℚ)
  | .t_int64 => (wrapS 64 (ratTrunc q) : ℚ)
  | .t_uint64 => (wrapU 64 (ratTrunc q) : ℚ)
  | .t_float32 => q
  | .t_float64 => q
  | .t_complex64 => q
  | .t_complex128 => q

/-- Modelled from the spec: the current tensor format's explicit
element-type tag (exact numbering not in the snapshot; chosen disjoint from
the legacy tag table so the two probes are mutually exclusive). -/
def tagOf : ElementType → Nat
  | .t_bool => 11
  | .t_int8 => 12
  | .t_uint8 => 13
  | .t_int16 => 14
  | .t_uint16 => 15
  | .t_int32 => 16
  | .t_uint32 => 17
  | .t_int64 => 18
  | .t_uint64 => 19
  | .t_float32 => 20
  | .t_float64 => 21
  | .t_complex64 => 22
  | .t_complex128 => 23

/-- Modelled from the spec: decoding of a current-format type tag. -/
def currentOfTagN : Nat → Option ElementType
  | 11 => some .t_bool
  | 12 => some .t_int8
  | 13 => some .t_uint8
  | 14 => some .t_int16
  | 15 => some .t_uint16
  | 16 => some .t_int32
  | 17 => some .t_uint32
  | 18 => some .t_int64
  | 19 => some .t_uint64
  | 20 => some .t_float32
  | 21 => some .t_float64
  | 22 => some .t_complex64
  | 23 => some .t_complex128
  | _ => none

/-- Modelled from the spec: the legacy ("torch5spro alpha") type-tag table —
an older, narrower encoding (char, short, int, long, float, double). -/
def legacyOfTagN : Nat → Option ElementType
  | 0 => some .t_int8
  | 1 => some .t_int16
  | 2 => some .t_int32
  | 3 => some .t_int64
  | 4 => some .t_float32
  | 5 => some .t_float64
  | _ => none

/-- Parse one stream token as a natural number (headers store naturals). -/
def parseNat (q : ℚ) : Option Nat :=
  if q.den = 1 ∧ 0 ≤ q.num then some q.num.toNat else none

/-- Parse `n` consecutive positive dimension sizes off a stream, returning
them with the unconsumed remainder. -/
def takePosNats : Nat → List ℚ → Option (List Nat × List ℚ)
  | 0, s => some ([], s)
  | _ + 1, [] => none
  | n + 1, q :: s =>
    match parseNat q with
    | some d =>
      if 1 ≤ d then
        match takePosNats n s with
        | some (ds, r) => some (d :: ds, r)
        | none => none
      else none
    | none => none

/-- Modelled from the spec: error taxonomy of §7 (no error header in the
snapshot); `FormatError` carries the offending field. -/
inductive Err where
  | fileNotFound
  | unsupportedFormat
  | formatError (field : String)
  | shapeMismatch
  | ioError (msg : String)
  | typeCastError
deriving DecidableEq

/-- Modelled from the spec: `write(stream, ElementType, Shape, Buffer)` of
the tensor codec — current layout {type-tag, ndim, dims} followed by raw
row-major data, no padding; writes always emit the current format. -/
def tensorWrite (et : ElementType) (dims : List Nat) (data : List ℚ) : List ℚ :=
  ((tagOf et : Nat) : ℚ) :: ((dims.length : Nat) : ℚ) :: (dims.map (fun d => ((d : Nat) : ℚ)) ++ data)

/-- Modelled from the spec: `readHeader(stream)` of the tensor codec — tries
the current header layout first, then the legacy one (fixed four dimension
slots, of which `ndim` are meaningful); consumes exactly the header and
returns the stream positioned at the data section. -/
def tensorReadHeader (s : List ℚ) : Except Err (ElementType × List Nat × List ℚ) :=
  match s with
  | [] => .error (.formatError "type tag")
  | t :: rest =>
    match parseNat t with
    | none => .error (.formatError "type tag")
    | some tn =>
      match currentOfTagN tn with
      | some et =>
        match rest with
        | [] => .error (.formatError "ndim")
        | n :: rest2 =>
          match parseNat n with
          | none => .error (.formatError "ndim")
          | some nd =>
            if 1 ≤ nd then
              match takePosNats nd rest2 with
              | some (dims, rest3) => .ok (et, dims, rest3)
              | none => .error (.formatError "dims")
            else .error (.formatError "ndim")
      | none =>
        match legacyOfTagN tn with
        | none => .error (.formatError "type tag")
        | some et =>
          match rest with
          | n :: s0 :: s1 :: s2 :: s3 :: rest3 =>
            match parseNat n with
            | none => .error (.formatError "ndim")
            | some nd =>
              if 1 ≤ nd ∧ nd ≤ 4 then
                match takePosNats nd [s0, s1, s2, s3] with
                | some (dims, _) => .ok (et, dims, rest3)
                | none => .error (.formatError "dims")
              else .error (.formatError "ndim")
          | _ => .error (.formatError "legacy header")

/-- Modelled from the spec: `readData(stream, ElementType, Shape)` — reads
`product(Shape)` elements from the data section; fails with a `FormatError`
if fewer are available; never zero-fills. -/
def tensorReadData (s : List ℚ) (dims : List Nat) : Except Err (List ℚ) :=
  if dims.prod ≤ s.length then .ok (s.take dims.prod) else .error (.formatError "data length")

/-- Modelled from the spec: `probe(header bytes)` of the tensor codec —
recognizes a stream beginning with either a current or a legacy type tag. -/
def tensorProbe (s : List ℚ) : Bool :=
  match s with
  | [] => false
  | t :: _ =>
    match parseNat t with
    | none => false
    | some tn => (currentOfTagN tn).isSome || (legacyOfTagN tn).isSome

/-- Modelled from the spec: the identity of a registered codec; the single
concrete codec of the snapshot is the tensor codec. -/
inductive CRef where
  | tensor
deriving DecidableEq

/-- A file system: paths mapped to byte-stream contents (absent = no file). -/
def FSys : Type := String → Option (List ℚ)

/-- The characters after the last dot of a path, if any. -/
def extAfterDot : List Char → Option (List Char)
  | [] => none
  | c :: cs =>
    match extAfterDot cs with
    | some r => some r
    | none => if c = '.' then some cs else none

/-- The extension of a path: the final dot and what follows it, or `""`. -/
def extOf (p : String) : String :=
  match extAfterDot p.data with
  | some cs => String.mk ('.' :: cs)
  | none => ""

/-- Modelled from the spec: `Registry.resolve` — the process-wide registry
maps the conventional `.tensor` extension to the tensor codec; no other
extension is claimed. -/
def resolveExt (ext : String) : Option CRef :=
  if ext = ".tensor" then some .tensor else none

/-- Modelled from the spec: `Registry.detect` — iterate registered codecs'
probes and return the first match. -/
def detect (s : List ℚ) : Option CRef :=
  if tensorProbe s then some .tensor else none

/-- Modelled from the spec: `bob::io::Array` — an optional in-memory Buffer,
an optional (filename, codec) source reference, and always-known
ElementType/Shape metadata. -/
structure Array where
  elementType : ElementType
  shape : List Nat
  buffer : Option (List ℚ)
  filename : String
  codec : Option CRef
deriving DecidableEq

/-- Modelled from the spec: construction from an already-typed in-memory
buffer — loaded, memory-resident, no filename, no codec reference. -/
def Array.fromBuffer (et : ElementType) (dims : List Nat) (data : List ℚ) : Array :=
  ⟨et, dims, some data, "", none⟩

/-- Metadata accessor: the shape. -/
def Array.getShape (a : Array) : List Nat := a.shape

/-- Metadata accessor: the number of dimensions. -/
def Array.getNDim (a : Array) : Nat := a.shape.length

/-- Metadata accessor: the element type. -/
def Array.getElementType (a : Array) : ElementType := a.elementType

/-- Metadata accessor: whether the data buffer is materialized. -/
def Array.isLoaded (a : Array) : Bool := a.buffer.isSome

/-- Metadata accessor: the source filename (empty if memory-resident). -/
def Array.getFilename (a : Array) : String := a.filename

/-- Metadata accessor: the use count of the held codec reference —
0 exactly when no codec reference is held (memory-resident case). -/
def Array.codecUseCount (a : Array) : Nat :=
  match a.codec with
  | none => 0
  | some _ => 1

/-- Modelled from the spec: `fromFile(path)` — resolve a codec via the
Registry by extension, falling back to header sniffing; read only the
header; construct a file-backed, unloaded Array. -/
def Array.fromFile (fs : FSys) (path : String) : Except Err Array :=
  match fs path with
  | none => .error .fileNotFound
  | some s =>
    match (match resolveExt (extOf path) with
           | some c => some c
           | none => detect s) with
    | none => .error .unsupportedFormat
    | some .tensor =>
      match tensorReadHeader s with
      | .error e => .error e
      | .ok (et, dims, _) => .ok ⟨et, dims, none, path, some .tensor⟩

/-- Modelled from the spec: `load()` — no-op if already loaded; otherwise
re-opens the source file, skips the header to position the stream, and calls
the codec's `readData` with the stored ElementType/Shape; caches the result. -/
def Array.load (fs : FSys) (a : Array) : Except Err Array :=
  if a.buffer.isSome then .ok a
  else
    match a.codec with
    | none => .error (.ioError "no source")
    | some .tensor =>
      match fs a.filename with
      | none => .error (.ioError "cannot open file")
      | some s =>
        match tensorReadHeader s with
        | .error e => .error e
        | .ok (_, _, rest) =>
          match tensorReadData rest a.shape with
          | .error e => .error e
          | .ok d => .ok { a with buffer := some d }

/-- Modelled from the spec: `get<T,N>()` — requires `N == ndim` (else
`ShapeMismatch`), ensures loaded, then returns the buffer cast element-wise
to the requested type. -/
def Array.get (fs : FSys) (T : ElementType) (N : Nat) (a : Array) :
    Except Err (Array × List ℚ) :=
  if N ≠ a.shape.length then .error .shapeMismatch
  else
    match a.load fs with
    | .error e => .error e
    | .ok a' => .ok (a', (a'.buffer.getD []).map (castTo T))

/-- Modelled from the spec: `save(path)` — ensures loaded (calling `load()`
if needed), resolves a codec for `path`'s extension via the Registry, and
writes; the Array's own source-identity fields are not touched. -/
def Array.save (fs : FSys) (a : Array) (path : String) : Except Err (FSys × Array) :=
  match a.load fs with
  | .error e => .error e
  | .ok a' =>
    match resolveExt (extOf path) with
    | none => .error .unsupportedFormat
    | some .tensor =>
      .ok (fun p => if p = path
                    then some (tensorWrite a'.elementType a'.shape (a'.buffer.getD []))
                    else fs p,
           a')

end Bob

namespace Torch

/-- A Python object, as seen by the converter in `map_container.h`: the only
structural fact the converter consults is whether the object is a dict
(`PyDict_Check`); dict entries pair key objects with value objects, in key
order, one entry per dict key. -/
inductive PyObj where
  | pyDict (entries : List (PyObj × PyObj))
  | pyStr (s : String)
  | pyInt (n : Int)
  | pyFloat (q : ℚ)
  | pyNone

/-- Embeds `from_python_dict::convertible`: `PyDict_Check(obj_ptr) ? obj_ptr : 0`. -/
def convertible : PyObj → Bool
  | .pyDict _ => true
  | _ => false

/-- The Python exception raised by `PYTHON_ERROR` during `construct`. -/
inductive PyErr where
  | keyError (msg : String)
  | valueError (msg : String)
deriving DecidableEq

/-- Assignment `self[key] = value` on a `std::map` represented as an ordered entry
list: overwrite the mapped value if the key is present, insert otherwise
(the blitz specialization of `assign` copies the value but stores it at the
same key, so its map effect is identical). -/
def mapInsert {κ μ : Type} [DecidableEq κ] : List (κ × μ) → κ → μ → List (κ × μ)
  | [], k, v => [(k, v)]
  | (k', v') :: rest, k, v =>
    if k' = k then (k', v) :: rest else (k', v') :: mapInsert rest k v

/-- The key/value loop of `from_python_dict::construct`, with the map built
so far as accumulator: for each dict entry, `boost::python::extract` the
key (else `KeyError` "unsuitable type"), extract the value (else
`ValueError` "unsuitable value"), then `assign` into the map. The `extract`
machinery lives outside this file, so the two extraction functions are
parameters. -/
def constructLoop {κ μ : Type} [DecidableEq κ]
    (kext : PyObj → Option κ) (vext : PyObj → Option μ)
    (self : List (κ × μ)) : List (PyObj × PyObj) → Except PyErr (List (κ × μ))
  | [] => .ok self
  | (k, v) :: rest =>
    match kext k with
    | none => .error (.keyError "unsuitable type")
    | some kk =>
      match vext v with
      | none => .error (.valueError "unsuitable value")
      | some vv => constructLoop kext vext (mapInsert self kk vv) rest

/-- Embeds `from_python_dict::construct`: placement-new an empty map, then run the
entry loop over the dict's entries in key order. -/
def construct {κ μ : Type} [DecidableEq κ]
    (kext : PyObj → Option κ) (vext : PyObj → Option μ)
    (entries : List (PyObj × PyObj)) : Except PyErr (List (κ × μ)) :=
  constructLoop kext vext [] entries

end Torch

namespace Bob

lemma parseNat_natCast (n : Nat) : parseNat ((n : Nat) : ℚ) = some n := by
  simp [parseNat]

lemma currentOfTagN_tagOf (et : ElementType) : currentOfTagN (tagOf et) = some et := by
  cases et <;> rfl

lemma takePosNats_append (dims : List Nat) (rest : List ℚ)
    (h : ∀ d ∈ dims, 1 ≤ d) :
    takePosNats dims.length (dims.map (fun d => ((d : Nat) : ℚ)) ++ rest) = some (dims, rest) := by
  induction dims with
  | nil => rfl
  | cons d ds ih =>
    have hd : 1 ≤ d := h d (List.mem_cons_self d ds)
    have hds : ∀ x ∈ ds, 1 ≤ x := fun x hx => h x (List.mem_cons_of_mem d hx)
    simp [takePosNats, parseNat_natCast, hd, ih hds]

lemma readHeader_write (et : ElementType) (dims : List Nat) (data : List ℚ)
    (hnd : 1 ≤ dims.length) (hpos : ∀ d ∈ dims, 1 ≤ d) :
    tensorReadHeader (tensorWrite et dims data) = .ok (et, dims, data) := by
  simp [tensorWrite, tensorReadHeader, parseNat_natCast, currentOfTagN_tagOf, hnd,
    takePosNats_append dims data hpos]

lemma load_of_loaded (fs : FSys) (a : Array) (h : a.buffer.isSome) :
    a.load fs = .ok a := by
  simp [Array.load, h]

lemma load_ok_meta (fs : FSys) (a a' : Array) (h : a.load fs = .ok a') :
    a'.elementType = a.elementType ∧ a'.shape = a.shape ∧ a'.filename = a.filename ∧
      a'.codec = a.codec ∧ a'.buffer.isSome := by
  unfold Array.load at h
  split at h
  · cases h
    exact ⟨rfl, rfl, rfl, rfl, by assumption⟩
  · split at h
    · exact (Except.noConfusion h)
    · split at h
      · exact (Except.noConfusion h)
      · split at h
        · exact (Except.noConfusion h)
        · split at h
          · exact (Except.noConfusion h)
          · cases h
            exact ⟨rfl, rfl, rfl, rfl, rfl⟩

end Bob

namespace Bob

/-- C1: an in-memory Array built from a buffer with element type T and shape
S, saved to a tensor file and re-read via fromFile plus load, yields an
Array whose ElementType equals T, whose Shape equals S, and whose elements
are pairwise equal to the original (for lossless types). -/
theorem c1_save_fromFile_load_roundtrip
    (et : ElementType) (dims : List Nat) (data : List ℚ) (fs : FSys) (path : String)
    (hext : extOf path = ".tensor")
    (hnd : 1 ≤ dims.length)
    (hpos : ∀ d ∈ dims, 1 ≤ d)
    (hlen : data.length = dims.prod)
    (hll : losslessET et = true) :
    ∃ fs' a₁ a₂ a₃,
      (Array.fromBuffer et dims data).save fs path = .ok (fs', a₁) ∧
      Array.fromFile fs' path = .ok a₂ ∧
      a₂.load fs' = .ok a₃ ∧
      a₃.getElementType = et ∧ a₃.getShape = dims ∧ a₃.buffer = some data := by
  have hread : tensorReadHeader (tensorWrite et dims data) = .ok (et, dims, data) :=
    readHeader_write et dims data hnd hpos
  refine ⟨fun p => if p = path then some (tensorWrite et dims data) else fs p,
          Array.fromBuffer et dims data,
          ⟨et, dims, none, path, some .tensor⟩,
          ⟨et, dims, some data, path, some .tensor⟩, ?_, ?_, ?_, rfl, rfl, rfl⟩
  · simp [Array.save, Array.load, Array.fromBuffer, hext, resolveExt]
  · simp [Array.fromFile, hext, resolveExt, hread]
  · simp [Array.load, hread, tensorReadData, ← hlen]

/-- Witness for C1: the test's 6×4 int8 matrix filled 1..24 row-major,
saved to "bobtest.tensor" on an empty file system. -/
theorem c1_witness :
    ∃ fs' a₁ a₂ a₃,
      (Array.fromBuffer .t_int8 [6, 4]
          [1, 2, 3, 4, 5, 6, 7, 8, 9, 10, 11, 12, 13, 14, 15, 16, 17, 18,
           19, 20, 21, 22, 23, 24]).save (fun _ => none) "bobtest.tensor" = .ok (fs', a₁) ∧
      Array.fromFile fs' "bobtest.tensor" = .ok a₂ ∧
      a₂.load fs' = .ok a₃ ∧
      a₃.getElementType = .t_int8 ∧ a₃.getShape = [6, 4] ∧
      a₃.buffer = some
          [1, 2, 3, 4, 5, 6, 7, 8, 9, 10, 11, 12, 13, 14, 15, 16, 17, 18,
           19, 20, 21, 22, 23, 24] :=
  c1_save_fromFile_load_roundtrip .t_int8 [6, 4] _ (fun _ => none) "bobtest.tensor"
    (by decide) (by decide) (by decide) (by decide) (by decide)

end Bob

namespace Bob

lemma current_none_of_legacy (tn : Nat) (et : ElementType)
    (h : legacyOfTagN tn = some et) : currentOfTagN tn = none := by
  match tn with
  | 0 | 1 | 2 | 3 | 4 | 5 => rfl
  | n + 6 => exact Option.noConfusion h

/-- C2: a file encoded in the legacy (alpha-era) tensor header variant,
opened via fromFile, yields an Array reporting the same ndim, Shape and
ElementType as the reference array, and get returns element-for-element
identical values. -/
theorem c2_legacy_fixture_read
    (fs : FSys) (path : String) (et : ElementType) (dims : List Nat)
    (data pad : List ℚ) (t s0 s1 s2 s3 : ℚ) (tn : Nat)
    (hfile : fs path = some (t :: ((dims.length : Nat) : ℚ) :: s0 :: s1 :: s2 :: s3 :: data))
    (hslots : dims.map (fun d => ((d : Nat) : ℚ)) ++ pad = [s0, s1, s2, s3])
    (hext : extOf path = ".tensor")
    (htag : parseNat t = some tn)
    (hleg : legacyOfTagN tn = some et)
    (hnd : 1 ≤ dims.length)
    (hpos : ∀ d ∈ dims, 1 ≤ d)
    (hlen : data.length = dims.prod)
    (hfix : ∀ q ∈ data, castTo et q = q) :
    ∃ a a', Array.fromFile fs path = .ok a ∧
      a.getNDim = dims.length ∧ a.getShape = dims ∧ a.getElementType = et ∧
      a.get fs et dims.length = .ok (a', data) := by
  have hle4 : dims.length ≤ 4 := by
    have := congrArg List.length hslots
    simp at this
    omega
  have hslots' : takePosNats dims.length [s0, s1, s2, s3] = some (dims, pad) := by
    rw [← hslots]
    exact takePosNats_append dims pad hpos
  have hread : tensorReadHeader (t :: ((dims.length : Nat) : ℚ) :: s0 :: s1 :: s2 :: s3 :: data) =
      .ok (et, dims, data) := by
    simp [tensorReadHeader, htag, current_none_of_legacy tn et hleg, hleg,
      parseNat_natCast, hnd, hle4, hslots']
  have hmap : data.map (castTo et) = data :=
    (List.map_congr_left hfix).trans (List.map_id data)
  refine ⟨⟨et, dims, none, path, some .tensor⟩,
          ⟨et, dims, some data, path, some .tensor⟩, ?_, rfl, rfl, rfl, ?_⟩
  · simp [Array.fromFile, hfile, hext, resolveExt, hread]
  · simp [Array.get, Array.load, hfile, hread, tensorReadData, ← hlen, hmap]

/-- Witness for C2: the 3×4 int8 reference matrix filled 0..11 row-major
(the test's `b`), stored at "tensor_char.tensor" in the legacy layout with
type tag 0 (char), ndim 2 and fixed dimension slots [3, 4, 0, 0]. -/
theorem c2_witness :
    ∃ a a',
      Array.fromFile
        (fun p => if p = "tensor_char.tensor"
         then some [0, 2, 3, 4, 0, 0, 0, 1, 2, 3, 4, 5, 6, 7, 8, 9, 10, 11]
         else none) "tensor_char.tensor" = .ok a ∧
      a.getNDim = 2 ∧ a.getShape = [3, 4] ∧ a.getElementType = .t_int8 ∧
      a.get (fun p => if p = "tensor_char.tensor"
         then some [0, 2, 3, 4, 0, 0, 0, 1, 2, 3, 4, 5, 6, 7, 8, 9, 10, 11]
         else none) .t_int8 2 = .ok (a', [0, 1, 2, 3, 4, 5, 6, 7, 8, 9, 10, 11]) :=
  c2_legacy_fixture_read _ "tensor_char.tensor" .t_int8 [3, 4]
    [0, 1, 2, 3, 4, 5, 6, 7, 8, 9, 10, 11] [0, 0] 0 3 4 0 0 0
    (by decide) (by decide) (by decide) (by decide) (by decide) (by decide)
    (by decide) (by decide) (by decide)

end Bob

namespace Bob

lemma get_ok_inv (fs : FSys) (T : ElementType) (N : Nat) (a a' : Array) (v : List ℚ)
    (h : a.get fs T N = .ok (a', v)) :
    N = a.shape.length ∧ a.load fs = .ok a' ∧ v = (a'.buffer.getD []).map (castTo T) := by
  unfold Array.get at h
  split at h
  · exact Except.noConfusion h
  · rename_i hN
    split at h
    · exact Except.noConfusion h
    · cases h
      exact ⟨not_ne_iff.mp hN, by assumption, rfl⟩

lemma fromFile_ok_unloaded (fs : FSys) (path : String) (a : Array)
    (h : Array.fromFile fs path = .ok a) : a.isLoaded = false := by
  unfold Array.fromFile at h
  split at h
  · exact Except.noConfusion h
  · split at h
    · exact Except.noConfusion h
    · split at h
      · exact Except.noConfusion h
      · cases h
        rfl

/-- C3: fromFile constructs an unloaded Array whose metadata comes from the
header alone (the data section is never inspected); the first data access
flips isLoaded to true, and a repeated data access returns the very same
loaded Array and values. -/
theorem c3_lazy_load_correctness :
    (∀ (fs : FSys) (path : String) (a : Array),
       Array.fromFile fs path = .ok a → a.isLoaded = false) ∧
    (∀ (fs : FSys) (path : String) (s rest : List ℚ) (et : ElementType) (dims : List Nat),
       fs path = some s → extOf path = ".tensor" →
       tensorReadHeader s = .ok (et, dims, rest) →
       Array.fromFile fs path = .ok ⟨et, dims, none, path, some .tensor⟩) ∧
    (∀ (fs : FSys) (T : ElementType) (N : Nat) (a a' : Array) (v : List ℚ),
       a.buffer = none → a.get fs T N = .ok (a', v) → a'.isLoaded = true) ∧
    (∀ (fs : FSys) (T : ElementType) (N : Nat) (a a' : Array) (v : List ℚ),
       a.get fs T N = .ok (a', v) → a'.get fs T N = .ok (a', v)) := by
  refine ⟨fromFile_ok_unloaded, ?_, ?_, ?_⟩
  · intro fs path s rest et dims hfs hext hread
    simp [Array.fromFile, hfs, hext, resolveExt, hread]
  · intro fs T N a a' v _ h
    obtain ⟨-, hload, -⟩ := get_ok_inv fs T N a a' v h
    obtain ⟨-, -, -, -, hsome⟩ := load_ok_meta fs a a' hload
    simpa [Array.isLoaded] using hsome
  · intro fs T N a a' v h
    obtain ⟨hN, hload, hv⟩ := get_ok_inv fs T N a a' v h
    obtain ⟨-, hshape, -, -, hsome⟩ := load_ok_meta fs a a' hload
    unfold Array.get
    rw [if_neg (by rw [hshape, ← hN]; exact fun hne => hne rfl),
      load_of_loaded fs a' hsome, hv]

/-- Witness for C3: a 3×4 int8 tensor file at "t.tensor"; fromFile yields an
unloaded Array with the header's metadata, the first get loads it, and a
second get returns the identical result. -/
theorem c3_witness :
    Array.fromFile
        (fun p => if p = "t.tensor"
         then some (tensorWrite .t_int8 [3, 4] [1, 2, 3, 4, 5, 6, 7, 8, 9, 10, 11, 12])
         else none) "t.tensor" =
      .ok ⟨.t_int8, [3, 4], none, "t.tensor", some .tensor⟩ ∧
    (⟨.t_int8, [3, 4], none, "t.tensor", some .tensor⟩ : Array).isLoaded = false ∧
    (⟨.t_int8, [3, 4], some [1, 2, 3, 4, 5, 6, 7, 8, 9, 10, 11, 12], "t.tensor",
        some .tensor⟩ : Array).isLoaded = true ∧
    Array.get
        (fun p => if p = "t.tensor"
         then some (tensorWrite .t_int8 [3, 4] [1, 2, 3, 4, 5, 6, 7, 8, 9, 10, 11, 12])
         else none) .t_int8 2
        ⟨.t_int8, [3, 4], some [1, 2, 3, 4, 5, 6, 7, 8, 9, 10, 11, 12], "t.tensor",
         some .tensor⟩ =
      .ok (⟨.t_int8, [3, 4], some [1, 2, 3, 4, 5, 6, 7, 8, 9, 10, 11, 12], "t.tensor",
            some .tensor⟩, [1, 2, 3, 4, 5, 6, 7, 8, 9, 10, 11, 12]) := by
  refine ⟨c3_lazy_load_correctness.2.1
            (fun p => if p = "t.tensor"
             then some (tensorWrite .t_int8 [3, 4] [1, 2, 3, 4, 5, 6, 7, 8, 9, 10, 11, 12])
             else none) "t.tensor"
            (tensorWrite .t_int8 [3, 4] [1, 2, 3, 4, 5, 6, 7, 8, 9, 10, 11, 12])
            [1, 2, 3, 4, 5, 6, 7, 8, 9, 10, 11, 12] .t_int8 [3, 4]
            (by decide) (by decide) (by decide),
          by decide,
          by decide,
          c3_lazy_load_correctness.2.2.2
            (fun p => if p = "t.tensor"
             then some (tensorWrite .t_int8 [3, 4] [1, 2, 3, 4, 5, 6, 7, 8, 9, 10, 11, 12])
             else none) .t_int8 2
            ⟨.t_int8, [3, 4], none, "t.tensor", some .tensor⟩
            ⟨.t_int8, [3, 4], some [1, 2, 3, 4, 5, 6, 7, 8, 9, 10, 11, 12], "t.tensor",
             some .tensor⟩
            [1, 2, 3, 4, 5, 6, 7, 8, 9, 10, 11, 12] (by decide)⟩

end Bob

namespace Bob

/-- C4: get applies the standard element-wise numeric conversion from the
stored type to the requested type and never fails on a loaded Array with
matching ndim; concretely, a stored int8 value -1 read as uint8 yields 255,
float values truncate toward zero when read as int, narrowing wraps per the
target type's conversion rule, and widening preserves the value. -/
theorem c4_cast_semantics :
    (∀ (fs : FSys) (T : ElementType) (a a' : Array) (v : List ℚ),
       a.get fs T a.shape.length = .ok (a', v) →
       v = (a'.buffer.getD []).map (castTo T)) ∧
    (∀ (fs : FSys) (T : ElementType) (a : Array) (d : List ℚ),
       a.buffer = some d → a.get fs T a.shape.length = .ok (a, d.map (castTo T))) ∧
    castTo .t_uint8 (-1) = 255 ∧
    castTo .t_int8 255 = -1 ∧
    castTo .t_int32 (mkRat (-15) 2) = -7 ∧
    castTo .t_int32 (mkRat 15 2) = 7 ∧
    castTo .t_uint8 300 = 44 ∧
    castTo .t_int16 (-1) = -1 := by
  refine ⟨?_, ?_, by decide, by decide, by decide, by decide, by decide, by decide⟩
  · intro fs T a a' v h
    exact (get_ok_inv fs T a.shape.length a a' v h).2.2
  · intro fs T a d hd
    have hs : a.buffer.isSome := by rw [hd]; rfl
    simp [Array.get, load_of_loaded fs a hs, hd]

/-- Witness for C4: a one-dimensional stored int8 array [-1, 7] read as
uint8 yields [255, 7]. -/
theorem c4_witness :
    (Array.fromBuffer .t_int8 [2] [-1, 7]).get (fun _ => none) .t_uint8 1 =
      .ok (Array.fromBuffer .t_int8 [2] [-1, 7], [255, 7]) :=
  c4_cast_semantics.2.1 (fun _ => none) .t_uint8
    (Array.fromBuffer .t_int8 [2] [-1, 7]) [-1, 7] rfl

lemma readHeader_error_format (s : List ℚ) (e : Err)
    (h : tensorReadHeader s = .error e) : ∃ f, e = .formatError f := by
  unfold tensorReadHeader at h
  repeat' split at h
  all_goals first
    | (cases h; exact ⟨_, rfl⟩)
    | exact Except.noConfusion h

/-- C5: load is a no-op on a loaded Array; a successful load preserves every
metadata field and only fills the buffer; a failed load reports an IOError
or a FormatError and, the Array value being untouched, the very same Array
loads successfully once the file system is corrected. -/
theorem c5_load_no_op_and_all_or_nothing :
    (∀ (fs : FSys) (a : Array), a.isLoaded = true → a.load fs = .ok a) ∧
    (∀ (fs : FSys) (a a' : Array), a.load fs = .ok a' →
       a'.elementType = a.elementType ∧ a'.shape = a.shape ∧
       a'.filename = a.filename ∧ a'.codec = a.codec ∧ a'.isLoaded = true) ∧
    (∀ (fs : FSys) (a : Array) (e : Err), a.load fs = .error e →
       (∃ m, e = .ioError m) ∨ (∃ f, e = .formatError f)) ∧
    (∀ (fs fs' : FSys) (a : Array) (e : Err) (s rest : List ℚ)
       (et : ElementType) (dims : List Nat),
       a.load fs = .error e → a.codec = some .tensor →
       fs' a.filename = some s → tensorReadHeader s = .ok (et, dims, rest) →
       a.shape.prod ≤ rest.length →
       a.load fs' = .ok { a with buffer := some (rest.take a.shape.prod) }) := by
  refine ⟨?_, ?_, ?_, ?_⟩
  · intro fs a h
    exact load_of_loaded fs a h
  · intro fs a a' h
    exact load_ok_meta fs a a' h
  · intro fs a e h
    unfold Array.load at h
    split at h
    · exact Except.noConfusion h
    · split at h
      · cases h; exact .inl ⟨_, rfl⟩
      · split at h
        · cases h; exact .inl ⟨_, rfl⟩
        · split at h
          · cases h
            rename_i heq
            exact .inr (readHeader_error_format _ _ heq)
          · split at h
            · cases h
              rename_i heq
              unfold tensorReadData at heq
              split at heq
              · exact Except.noConfusion heq
              · cases heq; exact .inr ⟨_, rfl⟩
            · exact Except.noConfusion h
  · intro fs fs' a e s rest et dims hfail hc hfs' hread hlen
    have hb : ¬ a.buffer.isSome := by
      intro hs
      rw [load_of_loaded fs a hs] at hfail
      exact Except.noConfusion hfail
    simp [Array.load, hb, hc, hfs', hread, tensorReadData, hlen]

/-- Witness for C5: an unloaded 1-dimensional int8 Array backed by
"m.tensor"; load fails with an IOError on an empty file system, and the
same Array loads to [5, 6] after the file appears. -/
theorem c5_witness :
    (⟨.t_int8, [2], none, "m.tensor", some .tensor⟩ : Array).load (fun _ => none) =
      .error (.ioError "cannot open file") ∧
    (⟨.t_int8, [2], none, "m.tensor", some .tensor⟩ : Array).load
        (fun p => if p = "m.tensor" then some (tensorWrite .t_int8 [2] [5, 6]) else none) =
      .ok ⟨.t_int8, [2], some [5, 6], "m.tensor", some .tensor⟩ := by
  refine ⟨by decide, ?_⟩
  exact c5_load_no_op_and_all_or_nothing.2.2.2 (fun _ => none)
    (fun p => if p = "m.tensor" then some (tensorWrite .t_int8 [2] [5, 6]) else none)
    ⟨.t_int8, [2], none, "m.tensor", some .tensor⟩ (.ioError "cannot open file")
    (tensorWrite .t_int8 [2] [5, 6]) [5, 6] .t_int8 [2]
    (by decide) (by decide) (by decide) (by decide) (by decide)

/-- C6: save succeeds from any state — memory-resident, file-backed loaded,
or file-backed unloaded with an intact source (it forces a load first if
necessary) — given a target extension the Registry claims, and it does not
mutate the Array's source-identity fields (filename and codec). -/
theorem c6_save_succeeds_and_keeps_identity
    (fs : FSys) (a a₀ : Array) (path : String)
    (hload : a.load fs = .ok a₀)
    (hext : extOf path = ".tensor") :
    ∃ fs' a', a.save fs path = .ok (fs', a') ∧
      a'.getFilename = a.getFilename ∧ a'.codec = a.codec ∧
      a'.elementType = a.elementType ∧ a'.shape = a.shape := by
  obtain ⟨h1, h2, h3, h4, -⟩ := load_ok_meta fs a a₀ hload
  refine ⟨fun p => if p = path
          then some (tensorWrite a₀.elementType a₀.shape (a₀.buffer.getD []))
          else fs p, a₀, ?_, h3, h4, h1, h2⟩
  unfold Array.save
  rw [hload, hext]
  rfl

/-- Witness for C6: saving a memory-resident 1-dimensional int8 Array to
"out.tensor" succeeds and leaves filename and codec untouched. -/
theorem c6_witness :
    ∃ fs' a', (Array.fromBuffer .t_int8 [2] [1, 2]).save (fun _ => none) "out.tensor" =
        .ok (fs', a') ∧
      a'.getFilename = (Array.fromBuffer .t_int8 [2] [1, 2]).getFilename ∧
      a'.codec = (Array.fromBuffer .t_int8 [2] [1, 2]).codec ∧
      a'.elementType = (Array.fromBuffer .t_int8 [2] [1, 2]).elementType ∧
      a'.shape = (Array.fromBuffer .t_int8 [2] [1, 2]).shape :=
  c6_save_succeeds_and_keeps_identity (fun _ => none)
    (Array.fromBuffer .t_int8 [2] [1, 2]) (Array.fromBuffer .t_int8 [2] [1, 2])
    "out.tensor" (by decide) (by decide)

/-- C7: an Array constructed from an in-memory typed buffer is loaded,
reports an empty filename, holds no codec reference (use count 0), and its
metadata accessors return the construction arguments. -/
theorem c7_memory_resident_accessors (et : ElementType) (dims : List Nat) (data : List ℚ) :
    (Array.fromBuffer et dims data).isLoaded = true ∧
    (Array.fromBuffer et dims data).getFilename = "" ∧
    (Array.fromBuffer et dims data).codecUseCount = 0 ∧
    (Array.fromBuffer et dims data).codec = none ∧
    (Array.fromBuffer et dims data).getShape = dims ∧
    (Array.fromBuffer et dims data).getNDim = dims.length ∧
    (Array.fromBuffer et dims data).getElementType = et :=
  ⟨rfl, rfl, rfl, rfl, rfl, rfl, rfl⟩

/-- C8: calling get with a requested dimensionality N different from the
Array's ndim fails with ShapeMismatch (no view is returned). -/
theorem c8_shape_mismatch (fs : FSys) (T : ElementType) (N : Nat) (a : Array)
    (h : N ≠ a.shape.length) : a.get fs T N = .error .shapeMismatch := by
  unfold Array.get
  rw [if_pos h]

/-- Witness for C8: get with N = 1 on the 2-dimensional 6×4 test array
fails with ShapeMismatch. -/
theorem c8_witness :
    (Array.fromBuffer .t_int8 [6, 4]
        [1, 2, 3, 4, 5, 6, 7, 8, 9, 10, 11, 12, 13, 14, 15, 16, 17, 18,
         19, 20, 21, 22, 23, 24]).get (fun _ => none) .t_int8 1 =
      .error .shapeMismatch :=
  c8_shape_mismatch (fun _ => none) .t_int8 1 _ (by decide)

/-- C9: fromFile on an existing file whose extension no registered codec
claims and whose header no registered probe matches fails with
UnsupportedFormat. -/
theorem c9_unsupported_format (fs : FSys) (path : String) (s : List ℚ)
    (hfs : fs path = some s)
    (hext : extOf path ≠ ".tensor")
    (hprobe : tensorProbe s = false) :
    Array.fromFile fs path = .error .unsupportedFormat := by
  simp [Array.fromFile, hfs, resolveExt, hext, detect, hprobe]

/-- Witness for C9: "x.unknownext" holding a stream that no probe matches
fails with UnsupportedFormat. -/
theorem c9_witness :
    Array.fromFile (fun p => if p = "x.unknownext" then some [999] else none)
      "x.unknownext" = .error .unsupportedFormat :=
  c9_unsupported_format (fun p => if p = "x.unknownext" then some [999] else none)
    "x.unknownext" [999] (by decide) (by decide) (by decide)

end Bob

namespace Torch

lemma mapInsert_fresh {κ μ : Type} [DecidableEq κ] (m : List (κ × μ)) (k : κ) (v : μ)
    (h : k ∉ m.map Prod.fst) : mapInsert m k v = m ++ [(k, v)] := by
  induction m with
  | nil => rfl
  | cons p rest ih =>
    obtain ⟨k', v'⟩ := p
    simp only [List.map_cons, List.mem_cons] at h
    push_neg at h
    have hne : ¬ k' = k := fun hkk => h.1 hkk.symm
    simp [mapInsert, hne, ih h.2]

lemma key_mem_mapInsert {κ μ : Type} [DecidableEq κ] (m : List (κ × μ)) (k k₀ : κ) (v : μ)
    (h : k₀ ∈ m.map Prod.fst ∨ k₀ = k) : k₀ ∈ (mapInsert m k v).map Prod.fst := by
  induction m with
  | nil =>
    simp at h
    simp [mapInsert, h]
  | cons p rest ih =>
    obtain ⟨k', v'⟩ := p
    by_cases hk : k' = k
    · simp only [mapInsert, if_pos hk]
      rcases h with h | h
      · simpa using h
      · simp [hk, h]
    · simp only [mapInsert, if_neg hk, List.map_cons, List.mem_cons]
      rcases h with h | h
      · simp only [List.map_cons, List.mem_cons] at h
        rcases h with h | h
        · exact .inl h
        · exact .inr (ih (.inl h))
      · exact .inr (ih (.inr h))

lemma key_mem_foldl {κ μ : Type} [DecidableEq κ] (ex : List (κ × μ)) (acc : List (κ × μ)) (k₀ : κ)
    (h : k₀ ∈ acc.map Prod.fst ∨ k₀ ∈ ex.map Prod.fst) :
    k₀ ∈ (ex.foldl (fun m q => mapInsert m q.1 q.2) acc).map Prod.fst := by
  induction ex generalizing acc with
  | nil => simpa using h
  | cons q rest ih =>
    simp only [List.map_cons, List.mem_cons] at h
    simp only [List.foldl_cons]
    rcases h with h | h | h
    · exact ih _ (.inl (key_mem_mapInsert acc q.1 k₀ q.2 (.inl h)))
    · exact ih _ (.inl (key_mem_mapInsert acc q.1 k₀ q.2 (.inr h)))
    · exact ih _ (.inr h)

lemma foldl_mapInsert_nodup {κ μ : Type} [DecidableEq κ] (ex : List (κ × μ)) (acc : List (κ × μ))
    (hnd : (ex.map Prod.fst).Nodup)
    (hdisj : ∀ k ∈ ex.map Prod.fst, k ∉ acc.map Prod.fst) :
    ex.foldl (fun m q => mapInsert m q.1 q.2) acc = acc ++ ex := by
  induction ex generalizing acc with
  | nil => simp
  | cons q rest ih =>
    obtain ⟨k, v⟩ := q
    simp only [List.map_cons, List.nodup_cons] at hnd
    have hfresh : k ∉ acc.map Prod.fst := hdisj k (by simp)
    have hdisj' : ∀ k' ∈ rest.map Prod.fst, k' ∉ (acc ++ [(k, v)]).map Prod.fst := by
      intro k' hk'
      simp only [List.map_append, List.mem_append, List.map_cons, List.map_nil,
        List.mem_singleton]
      push_neg
      exact ⟨hdisj k' (by simp [hk']), fun hkk => hnd.1 (hkk ▸ hk')⟩
    rw [List.foldl_cons, mapInsert_fresh acc k v hfresh,
      ih (acc ++ [(k, v)]) hnd.2 hdisj', List.append_assoc]
    rfl

lemma constructLoop_all_ok {κ μ : Type} [DecidableEq κ]
    (kext : PyObj → Option κ) (vext : PyObj → Option μ)
    (entries : List (PyObj × PyObj)) (ex : List (κ × μ)) (self : List (κ × μ))
    (h : List.Forall₂ (fun p q => kext p.1 = some q.1 ∧ vext p.2 = some q.2) entries ex) :
    constructLoop kext vext self entries =
      .ok (ex.foldl (fun m q => mapInsert m q.1 q.2) self) := by
  induction h generalizing self with
  | nil => rfl
  | cons hpq hrest ih =>
    rename_i p q _ _
    obtain ⟨k, v⟩ := p
    obtain ⟨kk, vv⟩ := q
    simp only [constructLoop, hpq.1, hpq.2, List.foldl_cons]
    exact ih (mapInsert self kk vv)

lemma constructLoop_key_error {κ μ : Type} [DecidableEq κ]
    (kext : PyObj → Option κ) (vext : PyObj → Option μ)
    (pre : List (PyObj × PyObj)) (k v : PyObj) (rest : List (PyObj × PyObj))
    (self : List (κ × μ))
    (hpre : ∀ p ∈ pre, (kext p.1).isSome ∧ (vext p.2).isSome)
    (hk : kext k = none) :
    constructLoop kext vext self (pre ++ (k, v) :: rest) =
      .error (.keyError "unsuitable type") := by
  induction pre generalizing self with
  | nil => simp [constructLoop, hk]
  | cons p pre' ih =>
    obtain ⟨k0, v0⟩ := p
    obtain ⟨hks, hvs⟩ := hpre (k0, v0) (by simp)
    obtain ⟨kk0, hkk0⟩ := Option.isSome_iff_exists.mp hks
    obtain ⟨vv0, hvv0⟩ := Option.isSome_iff_exists.mp hvs
    simp only [List.cons_append, constructLoop, hkk0, hvv0]
    exact ih _ (fun p hp => hpre p (by simp [hp]))

lemma constructLoop_value_error {κ μ : Type} [DecidableEq κ]
    (kext : PyObj → Option κ) (vext : PyObj → Option μ)
    (pre : List (PyObj × PyObj)) (k v : PyObj) (rest : List (PyObj × PyObj))
    (self : List (κ × μ)) (kk : κ)
    (hpre : ∀ p ∈ pre, (kext p.1).isSome ∧ (vext p.2).isSome)
    (hk : kext k = some kk) (hv : vext v = none) :
    constructLoop kext vext self (pre ++ (k, v) :: rest) =
      .error (.valueError "unsuitable value") := by
  induction pre generalizing self with
  | nil => simp [constructLoop, hk, hv]
  | cons p pre' ih =>
    obtain ⟨k0, v0⟩ := p
    obtain ⟨hks, hvs⟩ := hpre (k0, v0) (by simp)
    obtain ⟨kk0, hkk0⟩ := Option.isSome_iff_exists.mp hks
    obtain ⟨vv0, hvv0⟩ := Option.isSome_iff_exists.mp hvs
    simp only [List.cons_append, constructLoop, hkk0, hvv0]
    exact ih _ (fun p hp => hpre p (by simp [hp]))

end Torch

namespace Torch

/-- C10 counterexample: a two-entry dict whose two distinct key objects
both extract to the same map key "k" (a registered `extract` converter may
identify distinct Python objects) constructs successfully, yet the map has
one entry, not one entry per dict key: the second assignment overwrote the
first. -/
theorem c10_counterexample :
    construct (fun _ => some "k")
        (fun o => match o with | .pyInt n => some n | _ => none)
        [(.pyStr "a", .pyInt 1), (.pyStr "b", .pyInt 2)] = .ok [("k", 2)] ∧
    [(("k" : String), (2 : Int))].length ≠
      [(PyObj.pyStr "a", PyObj.pyInt 1), (PyObj.pyStr "b", PyObj.pyInt 2)].length := by
  exact ⟨rfl, by decide⟩

/-- C10 (amended): for every Python object, convertible holds iff it is a
dict; during construction a key that fails to extract raises KeyError
"unsuitable type" and a value that fails to extract raises ValueError
"unsuitable value" (entries before the failing one having succeeded);
when every entry extracts, construction succeeds with the map obtained by
assigning every entry in order — entries are never skipped, every
extracted key is present in the map — and when the extracted keys are
pairwise distinct the map holds exactly one entry per dict key, each
mapping that key's extracted value. -/
theorem c10_from_python_dict_behavior {κ μ : Type} [DecidableEq κ]
    (kext : PyObj → Option κ) (vext : PyObj → Option μ) :
    (∀ o : PyObj, convertible o = true ↔ ∃ d, o = .pyDict d) ∧
    (∀ (pre : List (PyObj × PyObj)) (k v : PyObj) (rest : List (PyObj × PyObj)),
       (∀ p ∈ pre, (kext p.1).isSome ∧ (vext p.2).isSome) → kext k = none →
       construct kext vext (pre ++ (k, v) :: rest) =
         .error (.keyError "unsuitable type")) ∧
    (∀ (pre : List (PyObj × PyObj)) (k v : PyObj) (rest : List (PyObj × PyObj)) (kk : κ),
       (∀ p ∈ pre, (kext p.1).isSome ∧ (vext p.2).isSome) →
       kext k = some kk → vext v = none →
       construct kext vext (pre ++ (k, v) :: rest) =
         .error (.valueError "unsuitable value")) ∧
    (∀ (entries : List (PyObj × PyObj)) (ex : List (κ × μ)),
       List.Forall₂ (fun p q => kext p.1 = some q.1 ∧ vext p.2 = some q.2) entries ex →
       construct kext vext entries = .ok (ex.foldl (fun m q => mapInsert m q.1 q.2) []) ∧
       ex.length = entries.length ∧
       (∀ q ∈ ex, q.1 ∈ ((ex.foldl (fun m q => mapInsert m q.1 q.2) []).map Prod.fst)) ∧
       ((ex.map Prod.fst).Nodup → ex.foldl (fun m q => mapInsert m q.1 q.2) [] = ex)) := by
  refine ⟨?_, ?_, ?_, ?_⟩
  · intro o
    cases o <;> simp [convertible]
  · intro pre k v rest hpre hk
    exact constructLoop_key_error kext vext pre k v rest [] hpre hk
  · intro pre k v rest kk hpre hk hv
    exact constructLoop_value_error kext vext pre k v rest [] kk hpre hk hv
  · intro entries ex h
    refine ⟨constructLoop_all_ok kext vext entries ex [] h,
            (List.Forall₂.length_eq h).symm, ?_, ?_⟩
    · intro q hq
      exact key_mem_foldl ex [] q.1 (.inr (List.mem_map_of_mem Prod.fst hq))
    · intro hnd
      simpa using foldl_mapInsert_nodup ex [] hnd (by simp)

/-- Witness for C10: with string-key and int-value extraction, the empty
dict is convertible; a non-string key raises KeyError, a non-int value
raises ValueError, and {"a": 1, "b": 2} constructs the two-entry map. -/
theorem c10_witness :
    convertible (.pyDict []) = true ∧
    construct (fun o => match o with | .pyStr s => some s | _ => none)
        (fun o => match o with | .pyInt n => some n | _ => none)
        [(.pyNone, .pyInt 1)] = .error (.keyError "unsuitable type") ∧
    construct (fun o => match o with | .pyStr s => some s | _ => none)
        (fun o => match o with | .pyInt n => some n | _ => none)
        [(.pyStr "a", .pyNone)] = .error (.valueError "unsuitable value") ∧
    construct (fun o => match o with | .pyStr s => some s | _ => none)
        (fun o => match o with | .pyInt n => some n | _ => none)
        [(.pyStr "a", .pyInt 1), (.pyStr "b", .pyInt 2)] =
      .ok [("a", 1), ("b", 2)] := by
  refine ⟨(c10_from_python_dict_behavior
            (fun o => match o with | .pyStr s => some s | _ => none)
            (fun o => match o with | .pyInt n => some n | _ => none)).1
              (.pyDict []) |>.mpr ⟨[], rfl⟩,
          (c10_from_python_dict_behavior _ _).2.1 [] .pyNone (.pyInt 1) []
            (by simp) rfl,
          (c10_from_python_dict_behavior _ _).2.2.1 [] (.pyStr "a") .pyNone [] "a"
            (by simp) rfl rfl,
          ?_⟩
  have h := (c10_from_python_dict_behavior
      (fun o => match o with | .pyStr s => some s | _ => none)
      (fun o => match o with | .pyInt n => some n | _ => none)).2.2.2
    [(.pyStr "a", .pyInt 1), (.pyStr "b", .pyInt 2)] [("a", 1), ("b", 2)]
    (.cons ⟨rfl, rfl⟩ (.cons ⟨rfl, rfl⟩ .nil))
  exact h.1.trans (congrArg Except.ok (h.2.2.2 (by decide)))

end Torch
